import Mathlib

/-!
Verification of the branch-deploy IssueOps action core.

This file gives a shallow embedding, in Lean 4, of the decision logic of the
repository:

* the JavaScript string primitives the source relies on (`String.prototype.trim`,
  single-occurrence `String.prototype.replace` with a string pattern, the
  global-regex replace used for unescaping, and single-character `split`),
* `onDeploymentChecks` and `findEnvironmentUrl` (src/functions/environment-targets),
* `environmentTargets` (same file) as an effect-producing wrapper,
* `postDeploy` (src/functions/post-deploy), and
* `run` (src/main.js) as a state machine over the results of its external
  collaborators (octokit calls, prechecks, context checks), recording the
  platform calls and `core.saveState` / `core.setOutput` / `core.setFailed`
  effects each path performs, in order.

Machine-facing effects are recorded in ordered lists so that claims about
"no platform call happened before X" or "state Y was saved on this path" are
statements about list membership and list equality.
-/

namespace BranchDeploy

/-! ## JavaScript string primitives -/

/-- Whitespace as relevant to the comment bodies and configuration strings the
action handles (`String.prototype.trim` on ASCII input). -/
def isJsWhitespace (c : Char) : Bool :=
  c = ' ' || c = '\t' || c = '\n' || c = '\r'

/-- Drop whitespace from both ends of a character list. -/
def trimChars (s : List Char) : List Char :=
  ((s.dropWhile isJsWhitespace).reverse.dropWhile isJsWhitespace).reverse

/-- `s.trim()` -/
def jsTrim (s : String) : String :=
  ⟨trimChars s.data⟩

/-- `s.replace(pat, '')` with a *string* pattern: JavaScript replaces only the
first occurrence, scanning left to right; if the pattern does not occur the
string is returned unchanged.  An empty pattern leaves the string unchanged
(the replacement used by the source is always the empty string). -/
def replaceFirstChars (pat : List Char) : List Char → List Char
  | [] => []
  | c :: rest =>
    if pat.isPrefixOf (c :: rest) then (c :: rest).drop pat.length
    else c :: replaceFirstChars pat rest

/-- `s.replace(pat, '')` for a string pattern (first occurrence only). -/
def jsReplaceFirst (s pat : String) : String :=
  ⟨replaceFirstChars pat.data s.data⟩

/-- Global replace with a non-empty literal pattern `p :: ps`, as the regexes
`/\\n/g` and `/\\t/g` behave on their (fixed, non-empty) literal patterns. -/
def replaceAllChars (p : Char) (ps repl : List Char) : List Char → List Char
  | [] => []
  | c :: rest =>
    if (p :: ps).isPrefixOf (c :: rest) then
      repl ++ replaceAllChars p ps repl ((c :: rest).drop (p :: ps).length)
    else
      c :: replaceAllChars p ps repl rest
termination_by l => l.length
decreasing_by
  · simp only [List.length_drop, List.length_cons]
    omega
  · simp

/-- `s.replace(/pat/g, repl)` for the non-empty literal patterns the source
uses (an empty pattern is never used by the source and is a no-op here). -/
def jsReplaceAll (s pat repl : String) : String :=
  match pat.data with
  | [] => s
  | p :: ps => ⟨replaceAllChars p ps repl.data s.data⟩

/-- Single-character `s.split(sep)`: `""` splits to `[""]`, separators at the
ends produce empty fields, like JavaScript. -/
def splitChars (sep : Char) : List Char → List (List Char)
  | [] => [[]]
  | c :: rest =>
    if c = sep then [] :: splitChars sep rest
    else
      match splitChars sep rest with
      | [] => [[c]]
      | h :: t => (c :: h) :: t

/-- `s.split(sep)` for a single-character separator. -/
def jsSplit (s : String) (sep : Char) : List String :=
  (splitChars sep s.data).map (⟨·⟩)

/-- `haystack.includes(needle)` (also the effect of testing a literal-string
regex without anchors). -/
def occursInChars (pat : List Char) : List Char → Bool
  | [] => pat.isEmpty
  | c :: rest => pat.isPrefixOf (c :: rest) || occursInChars pat rest

/-- `s.includes(pat)` -/
def jsIncludes (s pat : String) : Bool :=
  occursInChars pat.data s.data

/-- The test `/^https?:\/\//` used by `findEnvironmentUrl`: the string starts
with `http://` or `https://`. -/
def matchesHttpScheme (s : String) : Bool :=
  "http://".data.isPrefixOf s.data || "https://".data.isPrefixOf s.data

/-! ## Environment resolution (src/functions/environment-targets, `onDeploymentChecks`) -/

/-- One iteration of the `onDeploymentChecks` loop body for a single candidate
`target`: the chain of string comparisons of the source, in source order.
`some target` models `return target`, `some environment` models the
default-environment `return environment` branches, `none` models falling
through to the next candidate. -/
def deployTargetStep (body trigger noop_trigger stable_branch environment target : String) :
    Option String :=
  -- if the body on a branch deploy contains the target
  if jsTrim (jsReplaceFirst body trigger) = target then some target
  -- if the body on a noop trigger contains the target
  else if jsTrim (jsReplaceFirst body (trigger ++ " " ++ noop_trigger)) = target then some target
  -- branch deploy with the 'to <target>' phrasing
  else if jsTrim (jsReplaceFirst body trigger) = "to " ++ target then some target
  -- noop trigger with the 'to <target>' phrasing
  else if jsTrim (jsReplaceFirst body (trigger ++ " " ++ noop_trigger)) = "to " ++ target then
    some target
  -- stable branch deploy with the 'to <target>' phrasing
  else if jsTrim (jsReplaceFirst body (trigger ++ " " ++ stable_branch)) = "to " ++ target then
    some target
  -- stable branch deploy, bare form (a separate `if` statement in the source,
  -- but every earlier branch returns, so the chain is equivalent)
  else if jsTrim (jsReplaceFirst body (trigger ++ " " ++ stable_branch)) = target then some target
  -- exact trigger phrase: use the default environment
  else if jsTrim body = trigger then some environment
  -- exact trigger + noop phrase: use the default environment
  else if jsTrim body = trigger ++ " " ++ noop_trigger then some environment
  -- exact trigger + stable branch phrase: use the default environment
  else if jsTrim body = trigger ++ " " ++ stable_branch then some environment
  else none

/-- `onDeploymentChecks`: loop over the sanitized environment targets, first
match wins; `none` models the `return false` fall-through. -/
def onDeploymentChecks (environment_targets_sanitized : List String)
    (body trigger noop_trigger stable_branch environment : String) : Option String :=
  match environment_targets_sanitized with
  | [] => none
  | t :: rest =>
    match deployTargetStep body trigger noop_trigger stable_branch environment t with
    | some r => some r
    | none => onDeploymentChecks rest body trigger noop_trigger stable_branch environment

/-! ## Observable effects

The source performs its work through `@actions/core` state/output writes and
octokit platform calls.  Each modeled function returns the ordered list of
effects it performs next to its return value, so ordering and frame claims
become statements about these lists.  Pure logging (`core.info`, `core.debug`,
`core.warning`, `core.error`) is not recorded. -/

inductive Effect where
  | saveState (key value : String)
  | setOutput (key value : String)
  | setFailed (message : String)
  | reactEmote
  | createComment (body : String)
  | createDeployment (ref environment : String)
  | createDeploymentStatus (state : String)
  | actionStatus (message : String)
  | helpCommand
  | identicalCommitCheck
deriving DecidableEq, Repr

/-! ## Environment URL lookup (src/functions/environment-targets, `findEnvironmentUrl`) -/

/-- The loop of `findEnvironmentUrl` over the `<environment>|<url>` pairs.
A matching pair without a `|` separator makes the source evaluate
`undefined === 'disabled'` (false) and then call `.match` on `undefined`,
which throws a `TypeError`; that is the `Except.error` branch.  The empty
list case models falling out of the loop (warn, record `'null'`, return
`null`). -/
def findEnvironmentUrlGo (environment : String) :
    List String → List Effect × Except String (Option String)
  | [] =>
    ([Effect.saveState "environment_url" "null", Effect.setOutput "environment_url" "null"],
      Except.ok none)
  | pair :: rest =>
    let arr := jsSplit (jsTrim pair) '|'
    if arr[0]? = some environment then
      match arr[1]? with
      | none => ([], Except.error "TypeError: environment_url is undefined")
      | some url =>
        if url = "disabled" then
          ([Effect.saveState "environment_url" "null", Effect.setOutput "environment_url" "null"],
            Except.ok none)
        else if matchesHttpScheme url = false then
          -- warn and continue with the remaining pairs
          findEnvironmentUrlGo environment rest
        else
          ([Effect.saveState "environment_url" url, Effect.setOutput "environment_url" url],
            Except.ok (some url))
    else findEnvironmentUrlGo environment rest

/-- `findEnvironmentUrl(environment, environment_urls)`: `null` or blank input
short-circuits to `null` with no state writes; otherwise search the
comma-separated pairs. -/
def findEnvironmentUrl (environment : String) (environment_urls : Option String) :
    List Effect × Except String (Option String) :=
  match environment_urls with
  | none => ([], Except.ok none)
  | some s =>
    if jsTrim s = "" then ([], Except.ok none)
    else findEnvironmentUrlGo environment (jsSplit (jsTrim s) ',')

/-- The comment posted when no environment target matches. -/
def noMatchingTargetMessage (environment_targets_joined : String) : String :=
  "No matching environment target found. Please check your command and try again. You can read more about environment targets in the README of this Action.\n\n> The following environment targets are available: `"
    ++ environment_targets_joined ++ "`"

/-- `environmentTargets`: sanitize the configured target list, run
`onDeploymentChecks`, and either report the failure (comment + bypass state)
or look up the environment URL.  `actionStatusResult` is the outcome of the
one `actionStatus` platform call this function can make; a thrown `TypeError`
from `findEnvironmentUrl` propagates to the caller.  `Except.ok none` models
the `{environment: false, environmentUrl: null}` return. -/
def environmentTargets (environment body trigger alt_trigger stable_branch : String)
    (environment_targets_input : String) (environment_urls : Option String)
    (actionStatusResult : Except String Unit) :
    List Effect × Except String (Option (String × Option String)) :=
  let sanitized := (jsSplit environment_targets_input ',').map jsTrim
  match onDeploymentChecks sanitized body trigger alt_trigger stable_branch environment with
  | none =>
    let msg := "### ⚠️ Cannot proceed with deployment\n\n"
      ++ noMatchingTargetMessage (String.intercalate "," sanitized)
    match actionStatusResult with
    | Except.error e =>
      ([Effect.saveState "bypass" "true", Effect.actionStatus msg], Except.error e)
    | Except.ok _ =>
      ([Effect.saveState "bypass" "true", Effect.actionStatus msg], Except.ok none)
  | some target =>
    match findEnvironmentUrl target environment_urls with
    | (effs, Except.error e) => (effs, Except.error e)
    | (effs, Except.ok u) => (effs, Except.ok (some (target, u)))

/-! ## Completion phase (src/functions/post-deploy, `postDeploy`) -/

/-- Platform calls made by `postDeploy`.  `actionStatus` is the status-comment
update (with its success flag driving the ✅/❌ reaction swap);
`createDeploymentStatus` is the terminal deployment-status transition. -/
inductive Action where
  | actionStatus (reaction_id message : String) (success : Bool)
  | createDeploymentStatus (ref state deployment_id environment : String)
      (environment_url : Option String)
deriving DecidableEq, Repr

/-- The status-dependent sentence and emoji of `postDeploy` (lines 67-79 of
the source): `success` / `failure` / anything else. -/
def statusMessage (actor status deployTypeString ref environment : String) : String × String :=
  if status = "success" then
    ("**" ++ actor ++ "** successfully" ++ deployTypeString ++ "deployed branch `" ++ ref
      ++ "` to **" ++ environment ++ "**", "✅")
  else if status = "failure" then
    ("**" ++ actor ++ "** had a failure when" ++ deployTypeString ++ "deploying branch `" ++ ref
      ++ "` to **" ++ environment ++ "**", "❌")
  else
    ("Warning:" ++ deployTypeString ++ "deployment status is unknown, please use caution", "⚠️")

/-- The custom-message unescaping: `.replace(/\\n/g, '\n').replace(/\\t/g, '\t')`. -/
def unescapeCustomMessage (customMessage : String) : String :=
  jsReplaceAll (jsReplaceAll customMessage "\\n" "\n") "\\t" "\t"

/-- The conditionally formatted message body (`message_fmt`); the `dedent`
templates are modeled by their dedented text. -/
def formatBody (deployStatus message customMessage : String) : String :=
  if customMessage ≠ "" then
    "### Deployment Results " ++ deployStatus ++ "\n\n" ++ message
      ++ "\n\n<details><summary>Show Results</summary>\n\n"
      ++ unescapeCustomMessage customMessage ++ "\n\n</details>"
  else
    "### Deployment Results " ++ deployStatus ++ "\n\n" ++ message

/-- The displayed form of the environment URL: scheme stripped for display. -/
def stripHttpScheme (u : String) : String :=
  jsReplaceFirst (jsReplaceFirst u "https://") "http://"

/-- The blockquote line appended for the environment URL (display text with
the scheme stripped, link target the full URL). -/
def environmentUrlLine (u : String) : String :=
  "\n\n> **Environment URL:** [" ++ stripHttpScheme u ++ "](" ++ u ++ ")"

/-- The message body of `postDeploy` before the optional environment URL line
(`message_fmt` as of line 104 of the source). -/
def postDeployBaseMessage (actor status customMessage ref noop environment : String) : String :=
  let deployTypeString := if noop = "true" then " **noop** " else " "
  let (message, deployStatus) := statusMessage actor status deployTypeString ref environment
  formatBody deployStatus message customMessage

/-- The full message `postDeploy` sends to `actionStatus`: the formatted body
plus, behind the six-way gate of lines 108-115 of the source, the environment
URL line. -/
def postDeployMessage (actor status customMessage ref noop : String)
    (environment : String) (environment_url : Option String)
    (environment_url_in_comment : Bool) : String :=
  let base := postDeployBaseMessage actor status customMessage ref noop environment
  match environment_url with
  | none => base
  | some u =>
    if u ≠ "" ∧ jsTrim u ≠ "" ∧ status = "success" ∧ noop ≠ "true"
        ∧ environment_url_in_comment = true then
      base ++ environmentUrlLine u
    else base

/-- Written from the spec's wording of the URL gate (claim C3, §4.5), for
comparison with the six-way condition in the code: the URL is present and
non-blank, status is success, not no-op, and the caller opted in to
URL-in-comment. -/
def specUrlGate (environment_url : Option String) (status noop : String)
    (environment_url_in_comment : Bool) : Bool :=
  (match environment_url with
    | none => false
    | some u => jsTrim u != "")
    && status == "success" && noop != "true" && environment_url_in_comment

/-- `postDeploy`.  String inputs model the Action's string-valued inputs; an
input that is JavaScript-`undefined` or the empty string fails the same
`!x || x.length === 0` guard, so `""` models both "missing" and "empty".
The returned list holds the platform calls performed, in order; `Except.error`
models a thrown `Error` (no further call is attempted). -/
def postDeploy (actor comment_id reaction_id status customMessage ref noop deployment_id
    environment : String) (environment_url : Option String)
    (environment_url_in_comment : Bool) : List Action × Except String String :=
  if comment_id = "" then ([], Except.error "no comment_id provided")
  else if status = "" then ([], Except.error "no status provided")
  else if ref = "" then ([], Except.error "no ref provided")
  else if noop = "" then ([], Except.error "no noop value provided")
  else if noop ≠ "true" ∧ deployment_id = "" then ([], Except.error "no deployment_id provided")
  else if noop ≠ "true" ∧ environment = "" then ([], Except.error "no environment provided")
  else
    let success : Bool := status == "success"
    let message_fmt := postDeployMessage actor status customMessage ref noop environment
      environment_url environment_url_in_comment
    let acts := [Action.actionStatus reaction_id message_fmt success]
    let deploymentStatus := if success then "success" else "failure"
    if noop = "true" then
      (acts, Except.ok "success - noop")
    else
      (acts ++ [Action.createDeploymentStatus ref deploymentStatus deployment_id environment
        environment_url], Except.ok "success")

/-! ## The main lifecycle controller (src/main.js, `run`) -/

/-- Modelled from the spec: the trigger classifier (`triggerCheck`,
src/functions/trigger-check) is not included under src/.  Per the spec, §4.1,
matching is substring/prefix based: with `prefix_only` set the trigger phrase
must appear at the start of the (already trimmed) body, otherwise it may
appear anywhere in the body. -/
def triggerCheck (prefixOnly : Bool) (body trigger : String) : Bool :=
  if prefixOnly then trigger.data.isPrefixOf body.data
  else jsIncludes body trigger

/-- The result object of `prechecks` that `run` consumes. -/
structure PrecheckResults where
  status : Bool
  message : String
  ref : String
  sha : String
  noopMode : Bool
deriving DecidableEq, Repr

/-- The response of `octokit.rest.repos.createDeployment` as `run` reads it:
`id` may be absent (the auto-merge-required case), `message` accompanies it. -/
structure CreateDeployResult where
  id : Option Nat
  message : String
deriving DecidableEq, Repr

/-- The inputs `run` reads via `core.getInput` plus the event-context fields it
uses.  Inputs that are only forwarded to external collaborators and never
branch the modeled control flow (reaction, github_token, production_environment,
update_branch, required_contexts, allow_forks, skip_ci, skip_reviews, admins)
are omitted. -/
structure RunInputs where
  trigger : String
  prefixOnly : Bool
  environment : String
  stable_branch : String
  noop_trigger : String
  environment_targets : String
  help_trigger : String
  mergeDeployMode : Bool
  environment_urls : Option String
  body : String
  comment_id : String
  actor : String
deriving DecidableEq, Repr

deriving instance DecidableEq for Except

/-- The results of the awaited external calls `run` makes, one field per call
site; `Except.error` models the call throwing (caught by `run`'s top-level
`catch`). -/
structure RunOracle where
  contextCheckResult : Except String Bool
  reactEmoteResult : Except String Nat
  validPermissionsResult : Except String (Option String)
  helpResult : Except String Unit
  actionStatusResult : Except String Unit
  precheckResult : Except String PrecheckResults
  createCommentResult : Except String Unit
  createDeployResult : Except String CreateDeployResult
  createDeploymentStatusResult : Except String Unit
deriving DecidableEq, Repr

/-- The return value of `run`: its string returns, plus `errorCaught` for the
`catch` path (where the JavaScript function returns `undefined`). -/
inductive RunResult where
  | success
  | successNoop
  | successMergeDeploy
  | failure
  | safeExit
  | errorCaught
deriving DecidableEq, Repr

/-- The effects of `run`'s top-level `catch` block. -/
def catchEffects (msg : String) : List Effect :=
  [Effect.saveState "bypass" "true", Effect.setFailed msg]

/-- The "Deployment Triggered" comment body (the `dedent` template modeled by
its dedented text). -/
def deployTriggeredComment (actor deploymentType environment ref : String) : String :=
  "### Deployment Triggered 🚀\n\n__" ++ actor ++ "__, started a __" ++ deploymentType
    ++ "__ deployment to __" ++ environment
    ++ "__\n\nYou can watch the progress [here](log_url) 🔗\n\n> __Branch__: `" ++ ref ++ "`"

/-- The "Deployment Warning" comment posted when the platform answers the
deployment creation with no id and an auto-merge message. -/
def mergeRequiredMessage (message : String) : String :=
  "### ⚠️ Deployment Warning\n\n- Message: " ++ message
    ++ "\n- Note: If you have required CI checks, you may need to manually push a commit to re-run them\n\n> Deployment will not continue. Please try again once this branch is up-to-date with the base branch"

/-- `run` (src/main.js): the full control flow, with every `core.saveState`,
`core.setOutput`, `core.setFailed` and platform call recorded in order.
`identicalCommitCheck` is invoked without `await` in the source, so it is
recorded as an effect whose outcome cannot alter control flow. -/
def run (inp : RunInputs) (orc : RunOracle) : List Effect × RunResult :=
  let e0 := [Effect.saveState "isPost" "true"]
  if inp.mergeDeployMode then
    (e0 ++ [Effect.identicalCommitCheck, Effect.saveState "bypass" "true"],
      RunResult.successMergeDeploy)
  else
    let body := jsTrim inp.body
    match orc.contextCheckResult with
    | Except.error msg => (e0 ++ catchEffects msg, RunResult.errorCaught)
    | Except.ok false => (e0, RunResult.safeExit)
    | Except.ok true =>
      let isDeploy := triggerCheck inp.prefixOnly body inp.trigger
      let isHelp := triggerCheck inp.prefixOnly body inp.help_trigger
      if isDeploy && isHelp then
        (e0 ++ [Effect.saveState "bypass" "true", Effect.setOutput "triggered" "false",
          Effect.setFailed "IssueOps message contains multiple commands, only one is allowed"],
          RunResult.failure)
      else if !isDeploy && !isHelp then
        (e0 ++ [Effect.saveState "bypass" "true", Effect.setOutput "triggered" "false"],
          RunResult.safeExit)
      else
        let e1 := e0 ++ [Effect.setOutput "type" (if isDeploy then "deploy" else "help"),
          Effect.setOutput "triggered" "true"]
        match orc.reactEmoteResult with
        | Except.error msg => (e1 ++ [Effect.reactEmote] ++ catchEffects msg, RunResult.errorCaught)
        | Except.ok reaction_id =>
          let e2 := e1 ++ [Effect.reactEmote, Effect.setOutput "comment_id" inp.comment_id,
            Effect.saveState "comment_id" inp.comment_id,
            Effect.setOutput "initial_reaction_id" (toString reaction_id),
            Effect.saveState "reaction_id" (toString reaction_id),
            Effect.setOutput "actor_handle" inp.actor]
          if isHelp then
            match orc.validPermissionsResult with
            | Except.error msg => (e2 ++ catchEffects msg, RunResult.errorCaught)
            | Except.ok (some permMsg) =>
              match orc.actionStatusResult with
              | Except.error msg =>
                (e2 ++ [Effect.actionStatus permMsg] ++ catchEffects msg, RunResult.errorCaught)
              | Except.ok _ =>
                (e2 ++ [Effect.actionStatus permMsg, Effect.saveState "bypass" "true",
                  Effect.setFailed permMsg], RunResult.failure)
            | Except.ok none =>
              match orc.helpResult with
              | Except.error msg =>
                (e2 ++ [Effect.helpCommand] ++ catchEffects msg, RunResult.errorCaught)
              | Except.ok _ =>
                (e2 ++ [Effect.helpCommand, Effect.saveState "bypass" "true"], RunResult.safeExit)
          else
            match environmentTargets inp.environment body inp.trigger inp.noop_trigger
              inp.stable_branch inp.environment_targets inp.environment_urls
              orc.actionStatusResult with
            | (e3, Except.error msg) => (e2 ++ e3 ++ catchEffects msg, RunResult.errorCaught)
            | (e3, Except.ok none) => (e2 ++ e3, RunResult.safeExit)
            | (e3, Except.ok (some (environment, _environmentUrl))) =>
              let e4 := e2 ++ e3 ++ [Effect.saveState "environment" environment,
                Effect.setOutput "environment" environment]
              match orc.precheckResult with
              | Except.error msg => (e4 ++ catchEffects msg, RunResult.errorCaught)
              | Except.ok pr =>
                let e5 := e4 ++ [Effect.setOutput "ref" pr.ref, Effect.saveState "ref" pr.ref,
                  Effect.setOutput "sha" pr.sha]
                if pr.status = false then
                  match orc.actionStatusResult with
                  | Except.error msg =>
                    (e5 ++ [Effect.actionStatus pr.message] ++ catchEffects msg,
                      RunResult.errorCaught)
                  | Except.ok _ =>
                    (e5 ++ [Effect.actionStatus pr.message, Effect.saveState "bypass" "true",
                      Effect.setFailed pr.message], RunResult.failure)
                else
                  let commentBody := deployTriggeredComment inp.actor
                    (if pr.noopMode then "noop" else "branch") environment pr.ref
                  match orc.createCommentResult with
                  | Except.error msg =>
                    (e5 ++ [Effect.createComment commentBody] ++ catchEffects msg,
                      RunResult.errorCaught)
                  | Except.ok _ =>
                    let e6 := e5 ++ [Effect.createComment commentBody]
                    if pr.noopMode then
                      (e6 ++ [Effect.setOutput "noop" "true", Effect.setOutput "continue" "true",
                        Effect.saveState "noop" "true"], RunResult.successNoop)
                    else
                      let e7 := e6 ++ [Effect.setOutput "noop" "false",
                        Effect.saveState "noop" "false"]
                      match orc.createDeployResult with
                      | Except.error msg =>
                        (e7 ++ [Effect.createDeployment pr.ref environment] ++ catchEffects msg,
                          RunResult.errorCaught)
                      | Except.ok cd =>
                        let idStr := match cd.id with
                          | some n => toString n
                          | none => "undefined"
                        let e8 := e7 ++ [Effect.createDeployment pr.ref environment,
                          Effect.setOutput "deployment_id" idStr,
                          Effect.saveState "deployment_id" idStr]
                        if cd.id = none && jsIncludes cd.message "Auto-merged" then
                          match orc.actionStatusResult with
                          | Except.error msg =>
                            (e8 ++ [Effect.actionStatus (mergeRequiredMessage cd.message)]
                              ++ catchEffects msg, RunResult.errorCaught)
                          | Except.ok _ =>
                            (e8 ++ [Effect.actionStatus (mergeRequiredMessage cd.message),
                              Effect.saveState "bypass" "true"], RunResult.safeExit)
                        else
                          match orc.createDeploymentStatusResult with
                          | Except.error msg =>
                            (e8 ++ [Effect.createDeploymentStatus "in_progress"]
                              ++ catchEffects msg, RunResult.errorCaught)
                          | Except.ok _ =>
                            (e8 ++ [Effect.createDeploymentStatus "in_progress",
                              Effect.setOutput "continue" "true"], RunResult.success)

/-! ## Example fixtures

Concrete configurations used to evaluate the model at specific inputs. -/

/-- A representative configuration: default trigger phrases, two environment
targets, a plain `.deploy` comment. -/
def exInputs : RunInputs where
  trigger := ".deploy"
  prefixOnly := false
  environment := "production"
  stable_branch := "main"
  noop_trigger := "noop"
  environment_targets := "production,staging"
  help_trigger := ".help"
  mergeDeployMode := false
  environment_urls := some ""
  body := ".deploy"
  comment_id := "123"
  actor := "octo"

/-- An oracle where every external call succeeds and prechecks report noop
mode. -/
def exOracle : RunOracle where
  contextCheckResult := Except.ok true
  reactEmoteResult := Except.ok 7
  validPermissionsResult := Except.ok none
  helpResult := Except.ok ()
  actionStatusResult := Except.ok ()
  precheckResult := Except.ok
    { status := true
      message := ""
      ref := "mybranch"
      sha := "abc"
      noopMode := true }
  createCommentResult := Except.ok ()
  createDeployResult := Except.ok { id := some 42, message := "ok" }
  createDeploymentStatusResult := Except.ok ()

/-- The oracle `exOracle` with prechecks rejecting the deployment. -/
def exOracleRejected : RunOracle :=
  { exOracle with
    precheckResult := Except.ok
      { status := false
        message := "CI has not passed"
        ref := "mybranch"
        sha := "abc"
        noopMode := false } }

/-- The oracle `exOracle` with the context check reporting an invalid event
context. -/
def exOracleBadContext : RunOracle :=
  { exOracle with contextCheckResult := Except.ok false }

/-! ## Lemmas about the JavaScript string primitives -/

theorem data_ne_nil {s : String} (h : s ≠ "") : s.data ≠ [] := by
  intro hd
  exact h (String.ext hd)

theorem ne_of_data_length {s t : String} (h : s.data.length ≠ t.data.length) : s ≠ t := by
  intro he
  exact h (he ▸ rfl)

theorem isPrefixOf_append_self (l r : List Char) : l.isPrefixOf (l ++ r) = true :=
  List.isPrefixOf_iff_prefix.mpr (List.prefix_append l r)

theorem replaceFirstChars_append (p r : List Char) : replaceFirstChars p (p ++ r) = r := by
  cases p with
  | nil =>
    cases r with
    | nil => rfl
    | cons c t => simp [replaceFirstChars]
  | cons a p' =>
    rw [List.cons_append, replaceFirstChars]
    rw [if_pos (by rw [← List.cons_append]; exact isPrefixOf_append_self (a :: p') r)]
    rw [← List.cons_append]
    exact List.drop_left (a :: p') r

theorem replaceFirstChars_self (p : List Char) : replaceFirstChars p p = [] := by
  have := replaceFirstChars_append p []
  simpa using this

theorem replaceFirstChars_of_longer {p l : List Char} (h : l.length < p.length) :
    replaceFirstChars p l = l := by
  induction l with
  | nil => rfl
  | cons c rest ih =>
    rw [replaceFirstChars]
    rw [if_neg]
    · rw [ih (by simp at h; omega)]
    · intro hpre
      have hle := (List.isPrefixOf_iff_prefix.mp hpre).length_le
      simp only [List.length_cons] at h hle
      omega

theorem jsReplaceFirst_append (p r : String) : jsReplaceFirst (p ++ r) p = r :=
  String.ext (by
    show replaceFirstChars p.data (p ++ r).data = r.data
    rw [String.data_append]
    exact replaceFirstChars_append p.data r.data)

theorem jsReplaceFirst_self (p : String) : jsReplaceFirst p p = "" :=
  String.ext (by
    show replaceFirstChars p.data p.data = "".data
    rw [replaceFirstChars_self])

theorem jsReplaceFirst_of_longer {s p : String} (h : s.data.length < p.data.length) :
    jsReplaceFirst s p = s :=
  String.ext (replaceFirstChars_of_longer h)

theorem dropWhile_eq_self_of_head {p : Char → Bool} {l : List Char}
    (h : ∀ c ∈ l.head?, p c = false) : l.dropWhile p = l := by
  cases l with
  | nil => rfl
  | cons c t =>
    rw [List.dropWhile_cons, if_neg]
    simp only [List.head?_cons, Option.mem_def, Option.some.injEq] at h
    simp [h c rfl]

theorem dropWhile_head_false {p : Char → Bool} {l : List Char}
    (h : l.dropWhile p = l) : ∀ c ∈ l.head?, p c = false := by
  cases l with
  | nil => simp
  | cons c t =>
    intro x hx
    simp only [List.head?_cons, Option.mem_def, Option.some.injEq] at hx
    subst hx
    cases hpx : p c with
    | false => rfl
    | true =>
      exfalso
      rw [List.dropWhile_cons, if_pos hpx] at h
      have hle : (t.dropWhile p).length ≤ t.length := (List.dropWhile_suffix p).length_le
      have hcongr := congrArg List.length h
      simp only [List.length_cons] at hcongr
      omega

theorem trimChars_self_drops {l : List Char} (h : trimChars l = l) :
    l.dropWhile isJsWhitespace = l ∧
      l.reverse.dropWhile isJsWhitespace = l.reverse := by
  have hsufA := List.dropWhile_suffix (l := l) isJsWhitespace
  have hlen := congrArg List.length h
  simp only [trimChars, List.length_reverse] at hlen
  have hlenB :
      ((l.dropWhile isJsWhitespace).reverse.dropWhile isJsWhitespace).length ≤
        (l.dropWhile isJsWhitespace).length := by
    have := (List.dropWhile_suffix
      (l := (l.dropWhile isJsWhitespace).reverse) isJsWhitespace).length_le
    simpa using this
  have hlenA : (l.dropWhile isJsWhitespace).length = l.length := by
    have := hsufA.length_le
    omega
  have hA : l.dropWhile isJsWhitespace = l := hsufA.eq_of_length hlenA
  refine ⟨hA, ?_⟩
  have hrev : ((l.reverse.dropWhile isJsWhitespace)).reverse = l := by
    have h' := h
    unfold trimChars at h'
    rw [hA] at h'
    exact h'
  have := congrArg List.reverse hrev
  simpa using this

theorem trimmed_head {l : List Char} (h : trimChars l = l) :
    ∀ c ∈ l.head?, isJsWhitespace c = false :=
  dropWhile_head_false (trimChars_self_drops h).1

theorem trimmed_getLast {l : List Char} (h : trimChars l = l) :
    ∀ c ∈ l.getLast?, isJsWhitespace c = false := by
  have := dropWhile_head_false (trimChars_self_drops h).2
  intro c hc
  exact this c (by rw [List.head?_reverse]; exact hc)

theorem trimChars_eq_self {l : List Char}
    (h1 : ∀ c ∈ l.head?, isJsWhitespace c = false)
    (h2 : ∀ c ∈ l.getLast?, isJsWhitespace c = false) : trimChars l = l := by
  unfold trimChars
  rw [dropWhile_eq_self_of_head h1]
  rw [dropWhile_eq_self_of_head (by rw [List.head?_reverse]; exact h2)]
  exact List.reverse_reverse l

theorem trimChars_cons_ws {c : Char} (h : isJsWhitespace c = true) (l : List Char) :
    trimChars (c :: l) = trimChars l := by
  unfold trimChars
  rw [List.dropWhile_cons, if_pos h]

theorem jsTrim_data_of_eq {s : String} (h : jsTrim s = s) : trimChars s.data = s.data :=
  congrArg String.data h

theorem getLast?_append_right {l l' : List Char} (h : l' ≠ []) :
    (l ++ l').getLast? = l'.getLast? := by
  rw [List.getLast?_append]
  exact Option.or_of_isSome (List.getLast?_isSome.mpr h)

theorem head?_append_left {l l' : List Char} (h : l ≠ []) :
    (l ++ l').head? = l.head? := by
  cases l with
  | nil => exact absurd rfl h
  | cons c t => simp

/-- Trimming a phrase `a ++ " " ++ b` built from trimmed, non-empty pieces is
the identity. -/
theorem jsTrim_phrase {a b : String} (ha : jsTrim a = a) (hane : a ≠ "")
    (hb : jsTrim b = b) (hbne : b ≠ "") : jsTrim (a ++ " " ++ b) = a ++ " " ++ b := by
  apply String.ext
  show trimChars (a ++ " " ++ b).data = (a ++ " " ++ b).data
  apply trimChars_eq_self
  · rw [String.data_append, String.data_append]
    rw [List.append_assoc]
    rw [head?_append_left (data_ne_nil hane)]
    exact trimmed_head (jsTrim_data_of_eq ha)
  · rw [String.data_append]
    rw [getLast?_append_right (data_ne_nil hbne)]
    exact trimmed_getLast (jsTrim_data_of_eq hb)

/-- Trimming `" " ++ a` for trimmed `a` gives back `a` (used for the remainder
of a phrase after its leading trigger is removed). -/
theorem jsTrim_space_append {a : String} (ha : jsTrim a = a) : jsTrim (" " ++ a) = a := by
  apply String.ext
  show trimChars (" " ++ a).data = a.data
  have hdata : (" " ++ a).data = ' ' :: a.data := by
    rw [String.data_append]
    rfl
  rw [hdata, trimChars_cons_ws (by decide)]
  exact jsTrim_data_of_eq ha

/-- Trimming `" to " ++ e` for trimmed non-empty `e` gives `"to " ++ e`. -/
theorem jsTrim_space_to {e : String} (he : jsTrim e = e) (hene : e ≠ "") :
    jsTrim (" to " ++ e) = "to " ++ e := by
  apply String.ext
  show trimChars (" to " ++ e).data = ("to " ++ e).data
  have hdata : (" to " ++ e).data = ' ' :: ('t' :: 'o' :: ' ' :: e.data) := by
    rw [String.data_append]
    rfl
  have hdata2 : ("to " ++ e).data = 't' :: 'o' :: ' ' :: e.data := by
    rw [String.data_append]
    rfl
  rw [hdata, trimChars_cons_ws (by decide), hdata2]
  apply trimChars_eq_self
  · intro c hc
    simp only [List.head?_cons, Option.mem_def, Option.some.injEq] at hc
    rw [← hc]
    decide
  · have hsplit : 't' :: 'o' :: ' ' :: e.data = ['t', 'o', ' '] ++ e.data := rfl
    rw [hsplit, getLast?_append_right (data_ne_nil hene)]
    exact trimmed_getLast (jsTrim_data_of_eq he)

theorem to_append_ne (t : String) : "to " ++ t ≠ t := by
  apply ne_of_data_length
  rw [String.data_append]
  rw [List.length_append]
  have h3 : "to ".data.length = 3 := rfl
  omega

theorem to_append_ne_empty (t : String) : "to " ++ t ≠ "" := by
  apply ne_of_data_length
  rw [String.data_append, List.length_append]
  have h3 : "to ".data.length = 3 := rfl
  have h0 : "".data.length = 0 := rfl
  omega

theorem phrase_ne_left (a b : String) : a ++ " " ++ b ≠ a := by
  apply ne_of_data_length
  rw [String.data_append, String.data_append]
  rw [List.length_append, List.length_append]
  have h1 : " ".data.length = 1 := rfl
  omega

theorem phrase_data_length (a b : String) :
    (a ++ " " ++ b).data.length = a.data.length + 1 + b.data.length := by
  rw [String.data_append, String.data_append]
  rw [List.length_append, List.length_append]
  have h1 : " ".data.length = 1 := rfl
  omega

/-! ## Behaviour of a single `onDeploymentChecks` iteration -/

/-- For a body of the exact form `<trigger> to <e>` with `e` trimmed and
non-empty, the iteration of the loop that examines candidate `e` itself
matches (through the bare comparison, the noop comparison, or the
branch-deploy `to` comparison) and returns `e`. -/
theorem deployTargetStep_to_form {trigger noop_trigger stable_branch environment e : String}
    (he : jsTrim e = e) (hene : e ≠ "") :
    deployTargetStep (trigger ++ " to " ++ e) trigger noop_trigger stable_branch environment e
      = some e := by
  have hrep : jsTrim (jsReplaceFirst (trigger ++ " to " ++ e) trigger) = "to " ++ e := by
    rw [String.append_assoc, jsReplaceFirst_append, jsTrim_space_to he hene]
  unfold deployTargetStep
  rw [hrep]
  rw [if_neg (to_append_ne e)]
  by_cases h2 :
    jsTrim (jsReplaceFirst (trigger ++ " to " ++ e) (trigger ++ " " ++ noop_trigger)) = e
  · rw [if_pos h2]
  · rw [if_neg h2, if_pos rfl]

/-- When the body is exactly the trigger phrase and the candidate target
collides with none of the compared remainders, the iteration falls through to
the exact-phrase comparison and returns the default environment. -/
theorem deployTargetStep_bare_trigger {trigger noop_trigger stable_branch environment t₁ : String}
    (ht : jsTrim trigger = trigger)
    (h1 : t₁ ≠ "") (h2 : t₁ ≠ trigger) (h3 : trigger ≠ "to " ++ t₁) :
    deployTargetStep trigger trigger noop_trigger stable_branch environment t₁
      = some environment := by
  have hlen2 : trigger.data.length < (trigger ++ " " ++ noop_trigger).data.length := by
    rw [phrase_data_length]
    omega
  have hlen3 : trigger.data.length < (trigger ++ " " ++ stable_branch).data.length := by
    rw [phrase_data_length]
    omega
  unfold deployTargetStep
  rw [jsReplaceFirst_self]
  rw [show jsTrim "" = "" from rfl]
  rw [jsReplaceFirst_of_longer hlen2, jsReplaceFirst_of_longer hlen3, ht]
  rw [if_neg (Ne.symm h1)]
  rw [if_neg (Ne.symm h2)]
  rw [if_neg (Ne.symm (to_append_ne_empty t₁))]
  rw [if_neg h3]
  rw [if_neg h3]
  rw [if_neg (Ne.symm h2)]
  rw [if_pos rfl]

/-- When the body is exactly the trigger + noop phrase and the candidate
collides with none of the compared remainders, the iteration falls through to
the exact noop-phrase comparison and returns the default environment. -/
theorem deployTargetStep_noop_phrase {trigger noop_trigger stable_branch environment t₁ : String}
    (ht : jsTrim trigger = trigger) (htne : trigger ≠ "")
    (hn : jsTrim noop_trigger = noop_trigger) (hnne : noop_trigger ≠ "")
    (h1 : t₁ ≠ "") (h4 : t₁ ≠ noop_trigger) (h5 : noop_trigger ≠ "to " ++ t₁)
    (h6 : jsReplaceFirst (trigger ++ " " ++ noop_trigger) (trigger ++ " " ++ stable_branch)
      = trigger ++ " " ++ noop_trigger)
    (h7 : trigger ++ " " ++ noop_trigger ≠ "to " ++ t₁)
    (h8 : t₁ ≠ trigger ++ " " ++ noop_trigger) :
    deployTargetStep (trigger ++ " " ++ noop_trigger) trigger noop_trigger stable_branch
      environment t₁ = some environment := by
  have hrep1 : jsTrim (jsReplaceFirst (trigger ++ " " ++ noop_trigger) trigger)
      = noop_trigger := by
    rw [String.append_assoc, jsReplaceFirst_append, jsTrim_space_append hn]
  have hbody : jsTrim (trigger ++ " " ++ noop_trigger) = trigger ++ " " ++ noop_trigger :=
    jsTrim_phrase ht htne hn hnne
  unfold deployTargetStep
  rw [hrep1, jsReplaceFirst_self, show jsTrim "" = "" from rfl, h6, hbody]
  rw [if_neg (Ne.symm h4)]
  rw [if_neg (Ne.symm h1)]
  rw [if_neg h5]
  rw [if_neg (Ne.symm (to_append_ne_empty t₁))]
  rw [if_neg h7]
  rw [if_neg (Ne.symm h8)]
  rw [if_neg (phrase_ne_left trigger noop_trigger)]
  rw [if_pos rfl]

/-- When the body is exactly the trigger + stable-branch phrase and the
candidate collides with none of the compared remainders, the iteration falls
through to one of the exact-phrase comparisons and returns the default
environment. -/
theorem deployTargetStep_stable_phrase {trigger noop_trigger stable_branch environment t₁ : String}
    (ht : jsTrim trigger = trigger) (htne : trigger ≠ "")
    (hs : jsTrim stable_branch = stable_branch) (hsne : stable_branch ≠ "")
    (h1 : t₁ ≠ "") (h9 : t₁ ≠ stable_branch)
    (h10 : jsReplaceFirst (trigger ++ " " ++ stable_branch) (trigger ++ " " ++ noop_trigger)
      = trigger ++ " " ++ stable_branch)
    (h11 : t₁ ≠ trigger ++ " " ++ stable_branch)
    (h12 : stable_branch ≠ "to " ++ t₁)
    (h13 : trigger ++ " " ++ stable_branch ≠ "to " ++ t₁) :
    deployTargetStep (trigger ++ " " ++ stable_branch) trigger noop_trigger stable_branch
      environment t₁ = some environment := by
  have hrep1 : jsTrim (jsReplaceFirst (trigger ++ " " ++ stable_branch) trigger)
      = stable_branch := by
    rw [String.append_assoc, jsReplaceFirst_append, jsTrim_space_append hs]
  have hbody : jsTrim (trigger ++ " " ++ stable_branch) = trigger ++ " " ++ stable_branch :=
    jsTrim_phrase ht htne hs hsne
  unfold deployTargetStep
  rw [hrep1, h10, jsReplaceFirst_self, show jsTrim "" = "" from rfl, hbody]
  rw [if_neg (Ne.symm h9)]
  rw [if_neg (Ne.symm h11)]
  rw [if_neg h12]
  rw [if_neg h13]
  rw [if_neg (Ne.symm (to_append_ne_empty t₁))]
  rw [if_neg (Ne.symm h1)]
  rw [if_neg (phrase_ne_left trigger stable_branch)]
  by_cases hx : trigger ++ " " ++ stable_branch = trigger ++ " " ++ noop_trigger
  · rw [if_pos hx]
  · rw [if_neg hx, if_pos rfl]

/-! ## Claim C1 -/

/-- C1 (as frozen) is false: the claim asserts that for every non-empty
configured target list `E` and every body `"<trigger> to <e>"` with `e ∈ E`,
resolution returns `e`.  With `E = ["to x", "x"]` and `e = "x"` the body
`".deploy to x"` matches the earlier, distinct alias `"to x"` through the bare
comparison, so resolution returns `"to x"`, not `e = "x"`. -/
theorem onDeploymentChecks_to_form_counterexample :
    "x" ∈ ["to x", "x"]
      ∧ onDeploymentChecks ["to x", "x"] (".deploy" ++ " to " ++ "x") ".deploy" "noop" "main"
          "production" = some "to x"
      ∧ some "to x" ≠ some ("x" : String) :=
  ⟨by decide, by decide, by decide⟩

/-- C1 (amended): for a trimmed, non-empty configured target `e` and a body of
the exact form `"<trigger> to <e>"`, resolution returns `e` provided no alias
configured before (the first occurrence of) `e` matches the body under the
resolver's comparison rules; in particular, when `E` contains duplicate
aliases of `e`, the iteration of the first occurrence returns, so the first
matching alias in configured order is the result. -/
theorem onDeploymentChecks_to_form_first_match
    (E₁ E₂ : List String) (trigger noop_trigger stable_branch environment e : String)
    (he : jsTrim e = e) (hene : e ≠ "")
    (hprior : ∀ t ∈ E₁, deployTargetStep (trigger ++ " to " ++ e) trigger noop_trigger
      stable_branch environment t = none) :
    onDeploymentChecks (E₁ ++ e :: E₂) (trigger ++ " to " ++ e) trigger noop_trigger
      stable_branch environment = some e := by
  induction E₁ with
  | nil =>
    simp only [List.nil_append, onDeploymentChecks, deployTargetStep_to_form he hene]
  | cons t ts ih =>
    have ht := hprior t (List.mem_cons_self t ts)
    simp only [List.cons_append, onDeploymentChecks, ht]
    exact ih fun t' ht' => hprior t' (List.mem_cons_of_mem t ht')

/-- Witness for C1 (amended) at a concrete configuration: list
`["staging", "production"]`, body `".deploy to production"`. -/
theorem onDeploymentChecks_to_form_first_match_witness :
    onDeploymentChecks (["staging"] ++ "production" :: []) (".deploy" ++ " to " ++ "production")
      ".deploy" "noop" "main" "defaultenv" = some "production" :=
  onDeploymentChecks_to_form_first_match ["staging"] [] ".deploy" "noop" "main" "defaultenv"
    "production" (by decide) (by decide) (by decide)

/-! ## Claim C2 -/

/-- C2 (as frozen) is false: the claim asserts that a body equal to exactly
the trigger phrase always resolves to the configured default environment.
With target list `[".deploy"]` and trigger `".deploy"`, the iteration for the
target `".deploy"` matches it (through the unchanged-body noop comparison)
before the exact-phrase default branch is reached, so resolution returns the
target `".deploy"`, not the default `"production"`. -/
theorem onDeploymentChecks_bare_counterexample :
    onDeploymentChecks [".deploy"] ".deploy" ".deploy" "noop" "main" "production"
        = some ".deploy"
      ∧ some (".deploy" : String) ≠ some "production" :=
  ⟨by decide, by decide⟩

/-- C2 (amended): with the trigger, noop-trigger and stable-branch phrases
trimmed and non-empty, and the first configured target not colliding with any
compared remainder of the three exact-phrase bodies (it differs from `""`,
the phrases and their pieces, is not of the `"to " ++ target` form for any of
them, and the noop/stable phrases do not occur inside each other's bodies),
a body equal to exactly the bare trigger phrase, the trigger + noop phrase, or
the trigger + stable-branch phrase resolves to the configured default
environment (not NotFound) in the very first loop iteration. -/
theorem onDeploymentChecks_exact_phrase_default
    (rest : List String) (trigger noop_trigger stable_branch environment t₁ : String)
    (ht : jsTrim trigger = trigger) (htne : trigger ≠ "")
    (hn : jsTrim noop_trigger = noop_trigger) (hnne : noop_trigger ≠ "")
    (hs : jsTrim stable_branch = stable_branch) (hsne : stable_branch ≠ "")
    (h1 : t₁ ≠ "") (h2 : t₁ ≠ trigger) (h3 : trigger ≠ "to " ++ t₁)
    (h4 : t₁ ≠ noop_trigger) (h5 : noop_trigger ≠ "to " ++ t₁)
    (h6 : jsReplaceFirst (trigger ++ " " ++ noop_trigger) (trigger ++ " " ++ stable_branch)
      = trigger ++ " " ++ noop_trigger)
    (h7 : trigger ++ " " ++ noop_trigger ≠ "to " ++ t₁)
    (h8 : t₁ ≠ trigger ++ " " ++ noop_trigger)
    (h9 : t₁ ≠ stable_branch)
    (h10 : jsReplaceFirst (trigger ++ " " ++ stable_branch) (trigger ++ " " ++ noop_trigger)
      = trigger ++ " " ++ stable_branch)
    (h11 : t₁ ≠ trigger ++ " " ++ stable_branch)
    (h12 : stable_branch ≠ "to " ++ t₁)
    (h13 : trigger ++ " " ++ stable_branch ≠ "to " ++ t₁) :
    onDeploymentChecks (t₁ :: rest) trigger trigger noop_trigger stable_branch environment
        = some environment
      ∧ onDeploymentChecks (t₁ :: rest) (trigger ++ " " ++ noop_trigger) trigger noop_trigger
          stable_branch environment = some environment
      ∧ onDeploymentChecks (t₁ :: rest) (trigger ++ " " ++ stable_branch) trigger noop_trigger
          stable_branch environment = some environment := by
  refine ⟨?_, ?_, ?_⟩
  · simp only [onDeploymentChecks, deployTargetStep_bare_trigger ht h1 h2 h3]
  · simp only [onDeploymentChecks,
      deployTargetStep_noop_phrase ht htne hn hnne h1 h4 h5 h6 h7 h8]
  · simp only [onDeploymentChecks,
      deployTargetStep_stable_phrase ht htne hs hsne h1 h9 h10 h11 h12 h13]

/-- Witness for C2 (amended) at a concrete configuration. -/
theorem onDeploymentChecks_exact_phrase_default_witness :
    onDeploymentChecks ["staging"] ".deploy" ".deploy" "noop" "main" "production"
        = some "production"
      ∧ onDeploymentChecks ["staging"] (".deploy" ++ " " ++ "noop") ".deploy" "noop" "main"
          "production" = some "production"
      ∧ onDeploymentChecks ["staging"] (".deploy" ++ " " ++ "main") ".deploy" "noop" "main"
          "production" = some "production" :=
  onDeploymentChecks_exact_phrase_default [] ".deploy" "noop" "main" "production" "staging"
    (by decide) (by decide) (by decide) (by decide) (by decide) (by decide) (by decide)
    (by decide) (by decide) (by decide) (by decide) (by decide) (by decide) (by decide)
    (by decide) (by decide) (by decide) (by decide) (by decide)

/-! ## Claim C7 -/

/-- Totality of the `findEnvironmentUrl` loop over well-formed pairs: if every
pair naming the requested environment has a `|`-separated URL field, the loop
returns without throwing. -/
theorem findEnvironmentUrlGo_total (environment : String) (pairs : List String)
    (hwf : ∀ p ∈ pairs, (jsSplit (jsTrim p) '|')[0]? = some environment →
      2 ≤ (jsSplit (jsTrim p) '|').length) :
    ∃ r, (findEnvironmentUrlGo environment pairs).2 = Except.ok r := by
  induction pairs with
  | nil => exact ⟨none, rfl⟩
  | cons pair rest ih =>
    have ihrest := ih fun p hp => hwf p (List.mem_cons_of_mem pair hp)
    by_cases hm : (jsSplit (jsTrim pair) '|')[0]? = some environment
    · have hlen := hwf pair (List.mem_cons_self pair rest) hm
      have h1 : 1 < (jsSplit (jsTrim pair) '|').length := by omega
      have hurl : (jsSplit (jsTrim pair) '|')[1]? = some ((jsSplit (jsTrim pair) '|')[1]) :=
        List.getElem?_eq_getElem h1
      simp only [findEnvironmentUrlGo, hm, if_pos, hurl]
      by_cases hd : (jsSplit (jsTrim pair) '|')[1] = "disabled"
      · rw [if_pos hd]
        exact ⟨none, rfl⟩
      · rw [if_neg hd]
        by_cases hh : matchesHttpScheme ((jsSplit (jsTrim pair) '|')[1]) = false
        · rw [if_pos hh]
          exact ihrest
        · rw [if_neg hh]
          exact ⟨some _, rfl⟩
    · simp only [findEnvironmentUrlGo, hm, if_neg, if_false]
      exact ihrest

/-- If no pair names the requested environment, the loop warns and yields
`null`. -/
theorem findEnvironmentUrlGo_no_match (environment : String) (pairs : List String)
    (h : ∀ p ∈ pairs, (jsSplit (jsTrim p) '|')[0]? ≠ some environment) :
    (findEnvironmentUrlGo environment pairs).2 = Except.ok none := by
  induction pairs with
  | nil => rfl
  | cons pair rest ih =>
    simp only [findEnvironmentUrlGo, h pair (List.mem_cons_self pair rest), if_neg, if_false]
    exact ih fun p hp => h p (List.mem_cons_of_mem pair hp)

/-- C7 (as frozen) is false: `findEnvironmentUrl` is not total.  On the input
pair `"production"` (no `|` separator) with environment `"production"`, the
name matches, the URL field is JavaScript-`undefined`, and the source then
calls `.match` on `undefined`, throwing a `TypeError` instead of returning. -/
theorem findEnvironmentUrl_throws_counterexample :
    (findEnvironmentUrl "production" (some "production")).2
      = Except.error "TypeError: environment_url is undefined" := by
  decide

/-- C7 (amended): `findEnvironmentUrl` never throws provided every pair whose
name field matches the requested environment actually has a `|`-separated URL
field; under that proviso: a blank or null input yields `null`, an environment
with no matching pair yields `null`, a matching pair whose URL is the literal
`disabled` yields `null` (not an error), and a matching pair whose URL lacks
an `http(s)://` prefix is skipped, the search continuing through the later
pairs (including later pairs with the same name). -/
theorem findEnvironmentUrl_total_behavior (environment : String)
    (environment_urls : Option String)
    (hwf : ∀ s, environment_urls = some s → ∀ p ∈ jsSplit (jsTrim s) ',',
      (jsSplit (jsTrim p) '|')[0]? = some environment →
        2 ≤ (jsSplit (jsTrim p) '|').length) :
    (∃ r, (findEnvironmentUrl environment environment_urls).2 = Except.ok r)
      ∧ (environment_urls = none →
          (findEnvironmentUrl environment environment_urls).2 = Except.ok none)
      ∧ (∀ s, environment_urls = some s → jsTrim s = "" →
          (findEnvironmentUrl environment environment_urls).2 = Except.ok none)
      ∧ (∀ s, environment_urls = some s →
          (∀ p ∈ jsSplit (jsTrim s) ',', (jsSplit (jsTrim p) '|')[0]? ≠ some environment) →
          (findEnvironmentUrl environment environment_urls).2 = Except.ok none)
      ∧ (∀ pair rest, (jsSplit (jsTrim pair) '|')[0]? = some environment →
          (jsSplit (jsTrim pair) '|')[1]? = some "disabled" →
          (findEnvironmentUrlGo environment (pair :: rest)).2 = Except.ok none)
      ∧ (∀ pair rest url, (jsSplit (jsTrim pair) '|')[0]? = some environment →
          (jsSplit (jsTrim pair) '|')[1]? = some url → url ≠ "disabled" →
          matchesHttpScheme url = false →
          findEnvironmentUrlGo environment (pair :: rest)
            = findEnvironmentUrlGo environment rest) := by
  refine ⟨?_, ?_, ?_, ?_, ?_, ?_⟩
  · match environment_urls with
    | none => exact ⟨none, rfl⟩
    | some s =>
      by_cases hb : jsTrim s = ""
      · refine ⟨none, ?_⟩
        simp only [findEnvironmentUrl, hb, if_pos]
      · have hgo := findEnvironmentUrlGo_total environment (jsSplit (jsTrim s) ',')
          (hwf s rfl)
        simpa only [findEnvironmentUrl, hb, if_neg, if_false] using hgo
  · intro h
    subst h
    rfl
  · intro s hs hb
    subst hs
    simp only [findEnvironmentUrl, hb, if_pos]
  · intro s hs hnm
    subst hs
    by_cases hb : jsTrim s = ""
    · simp only [findEnvironmentUrl, hb, if_pos]
    · simp only [findEnvironmentUrl, hb, if_neg, if_false]
      exact findEnvironmentUrlGo_no_match environment _ hnm
  · intro pair rest hm hurl
    simp only [findEnvironmentUrlGo, hm, if_pos, hurl, if_pos rfl]
  · intro pair rest url hm hurl hd hh
    simp only [findEnvironmentUrlGo, hm, if_pos, hurl, if_neg hd, if_pos hh]

/-- Witness for C7 (amended) on a configuration exercising `disabled`, a
malformed URL that is skipped in favour of a later pair with the same name,
and a missing environment. -/
theorem findEnvironmentUrl_total_behavior_witness :
    (∃ r, (findEnvironmentUrl "staging"
        (some "production|disabled,staging|ftp://bad,staging|https://s.example.com")).2
      = Except.ok r)
      ∧ (findEnvironmentUrl "staging"
          (some "production|disabled,staging|ftp://bad,staging|https://s.example.com")).2
        = Except.ok (some "https://s.example.com") :=
  ⟨(findEnvironmentUrl_total_behavior "staging"
      (some "production|disabled,staging|ftp://bad,staging|https://s.example.com")
      (by decide)).1,
    by decide⟩

/-! ## Claim C3 -/

/-- Unfolding of the spec-side URL gate into its four conditions. -/
theorem specUrlGate_iff (eu : Option String) (status noop : String) (b : Bool) :
    specUrlGate eu status noop b = true ↔
      ∃ u, eu = some u ∧ jsTrim u ≠ "" ∧ status = "success" ∧ noop ≠ "true" ∧ b = true := by
  cases eu with
  | none => simp [specUrlGate]
  | some u =>
    simp only [specUrlGate, Bool.and_eq_true, bne_iff_ne, beq_iff_eq, ne_eq,
      Option.some.injEq]
    constructor
    · rintro ⟨⟨⟨hu, hs⟩, hn⟩, hb⟩
      exact ⟨u, rfl, hu, hs, hn, hb⟩
    · rintro ⟨u', hu', hu, hs, hn, hb⟩
      cases hu'
      exact ⟨⟨⟨hu, hs⟩, hn⟩, hb⟩

/-- An appended environment URL line always changes the message (it is
non-empty). -/
theorem append_environmentUrlLine_ne (b u : String) : b ++ environmentUrlLine u ≠ b := by
  apply ne_of_data_length
  unfold environmentUrlLine stripHttpScheme
  rw [String.data_append]
  rw [List.length_append]
  have hpos : 0 < ("\n\n> **Environment URL:** [" ++
      jsReplaceFirst (jsReplaceFirst u "https://") "http://" ++ "](" ++ u ++ ")").data.length := by
    rw [String.data_append, List.length_append]
    rw [String.data_append, List.length_append]
    rw [String.data_append, List.length_append]
    rw [String.data_append, List.length_append]
    have h1 : 0 < "\n\n> **Environment URL:** [".data.length := by decide
    omega
  omega

/-- C3: the environment-URL blockquote line is appended to the completion
message exactly when all four of the spec's gating conditions hold (URL
present and non-blank, status `success`, not no-op, URL-in-comment opted in);
negating the gate yields the bare message, and appending the line always
changes the message.  The appended line displays the URL with its `http(s)`
scheme stripped while the link target keeps the full URL (definition
`environmentUrlLine`). -/
theorem postDeployMessage_url_gate (actor status customMessage ref noop environment : String)
    (environment_url : Option String) (environment_url_in_comment : Bool) :
    (specUrlGate environment_url status noop environment_url_in_comment = true →
      ∃ u, environment_url = some u ∧
        postDeployMessage actor status customMessage ref noop environment environment_url
            environment_url_in_comment
          = postDeployBaseMessage actor status customMessage ref noop environment
              ++ environmentUrlLine u)
      ∧ (specUrlGate environment_url status noop environment_url_in_comment = false →
        postDeployMessage actor status customMessage ref noop environment environment_url
            environment_url_in_comment
          = postDeployBaseMessage actor status customMessage ref noop environment)
      ∧ (∀ b u, b ++ environmentUrlLine u ≠ b) := by
  refine ⟨?_, ?_, append_environmentUrlLine_ne⟩
  · intro hgate
    obtain ⟨u, hu, htrim, hs, hn, hb⟩ := (specUrlGate_iff _ _ _ _).mp hgate
    refine ⟨u, hu, ?_⟩
    have hune : u ≠ "" := by
      intro he
      rw [he] at htrim
      exact htrim rfl
    subst hu
    simp only [postDeployMessage]
    rw [if_pos ⟨hune, htrim, hs, hn, hb⟩]
  · intro hgate
    match hu : environment_url with
    | none => rfl
    | some u =>
      simp only [postDeployMessage]
      rw [if_neg]
      intro ⟨hune, htrim, hs, hn, hb⟩
      rw [(specUrlGate_iff (some u) status noop environment_url_in_comment).mpr
        ⟨u, rfl, htrim, hs, hn, hb⟩] at hgate
      exact Bool.true_eq_false ▸ hgate

/-- Witness for C3: a successful, non-noop deployment with an opted-in,
non-blank URL gets the URL line; flipping the opt-in flag removes it. -/
theorem postDeployMessage_url_gate_witness :
    postDeployMessage "octo" "success" "" "mybranch" "false" "production"
        (some "https://example.com") true
      = postDeployBaseMessage "octo" "success" "" "mybranch" "false" "production"
          ++ environmentUrlLine "https://example.com"
      ∧ postDeployMessage "octo" "success" "" "mybranch" "false" "production"
          (some "https://example.com") false
        = postDeployBaseMessage "octo" "success" "" "mybranch" "false" "production" := by
  constructor
  · obtain ⟨u, hu, heq⟩ := (postDeployMessage_url_gate "octo" "success" "" "mybranch" "false"
      "production" (some "https://example.com") true).1 (by decide)
    have hu' : u = "https://example.com" := by
      injection hu with h
      exact h.symm
    rw [hu'] at heq
    exact heq
  · exact (postDeployMessage_url_gate "octo" "success" "" "mybranch" "false"
      "production" (some "https://example.com") false).2.1 (by decide)

/-! ## Claim C4 -/

/-- C4: `postDeploy` validates its required inputs before acting: a missing or
empty `comment_id`, `status`, `ref` or `noop` — and, when `noop` is not
`'true'`, a missing or empty `deployment_id` or `environment` — makes it throw
with no platform call performed (no comment update, no deployment-status
transition). -/
theorem postDeploy_input_validation (actor comment_id reaction_id status customMessage ref noop
    deployment_id environment : String) (environment_url : Option String)
    (environment_url_in_comment : Bool)
    (h : comment_id = "" ∨ status = "" ∨ ref = "" ∨ noop = ""
      ∨ (noop ≠ "true" ∧ (deployment_id = "" ∨ environment = ""))) :
    (postDeploy actor comment_id reaction_id status customMessage ref noop deployment_id
        environment environment_url environment_url_in_comment).1 = []
      ∧ ∃ msg, (postDeploy actor comment_id reaction_id status customMessage ref noop
          deployment_id environment environment_url environment_url_in_comment).2
        = Except.error msg := by
  unfold postDeploy
  by_cases h1 : comment_id = ""
  · rw [if_pos h1]
    exact ⟨rfl, _, rfl⟩
  rw [if_neg h1]
  by_cases h2 : status = ""
  · rw [if_pos h2]
    exact ⟨rfl, _, rfl⟩
  rw [if_neg h2]
  by_cases h3 : ref = ""
  · rw [if_pos h3]
    exact ⟨rfl, _, rfl⟩
  rw [if_neg h3]
  by_cases h4 : noop = ""
  · rw [if_pos h4]
    exact ⟨rfl, _, rfl⟩
  rw [if_neg h4]
  by_cases h5 : noop ≠ "true" ∧ deployment_id = ""
  · rw [if_pos h5]
    exact ⟨rfl, _, rfl⟩
  rw [if_neg h5]
  by_cases h6 : noop ≠ "true" ∧ environment = ""
  · rw [if_pos h6]
    exact ⟨rfl, _, rfl⟩
  exfalso
  rcases h with h | h | h | h | ⟨hn, h | h⟩
  · exact h1 h
  · exact h2 h
  · exact h3 h
  · exact h4 h
  · exact h5 ⟨hn, h⟩
  · exact h6 ⟨hn, h⟩

/-- Witness for C4 at a concrete missing `deployment_id` in non-noop mode. -/
theorem postDeploy_input_validation_witness :
    (postDeploy "octo" "123" "7" "success" "" "mybranch" "false" "" "production" none
        false).1 = []
      ∧ ∃ msg, (postDeploy "octo" "123" "7" "success" "" "mybranch" "false" "" "production" none
          false).2 = Except.error msg :=
  postDeploy_input_validation "octo" "123" "7" "success" "" "mybranch" "false" "" "production"
    none false (Or.inr (Or.inr (Or.inr (Or.inr ⟨by decide, Or.inl rfl⟩))))

/-! ## Claim C8 -/

/-- C8: for every status string the completion-phase message formatter yields
exactly one of three outcomes (it is a total function): `success` gives the
affirmative sentence with ✅ and a true success flag, `failure` gives the
negative sentence with ❌ and a false flag, and any other status gives the
cautionary unknown-status sentence with ⚠️ and a false flag.  The flag shown
is the expression `postDeploy` passes to the status comment. -/
theorem statusMessage_trichotomy (actor status deployTypeString ref environment : String) :
    (status = "success" →
      statusMessage actor status deployTypeString ref environment
          = ("**" ++ actor ++ "** successfully" ++ deployTypeString ++ "deployed branch `"
              ++ ref ++ "` to **" ++ environment ++ "**", "✅")
        ∧ (status == "success") = true)
      ∧ (status = "failure" →
        statusMessage actor status deployTypeString ref environment
            = ("**" ++ actor ++ "** had a failure when" ++ deployTypeString
                ++ "deploying branch `" ++ ref ++ "` to **" ++ environment ++ "**", "❌")
          ∧ (status == "success") = false)
      ∧ (status ≠ "success" → status ≠ "failure" →
        statusMessage actor status deployTypeString ref environment
            = ("Warning:" ++ deployTypeString
                ++ "deployment status is unknown, please use caution", "⚠️")
          ∧ (status == "success") = false) := by
  refine ⟨?_, ?_, ?_⟩
  · intro hs
    subst hs
    exact ⟨rfl, rfl⟩
  · intro hs
    subst hs
    exact ⟨rfl, rfl⟩
  · intro hs hf
    constructor
    · unfold statusMessage
      rw [if_neg hs, if_neg hf]
    · exact beq_eq_false_iff_ne.mpr hs

/-- Witness for C8 at the unrecognized status `"cancelled"`. -/
theorem statusMessage_trichotomy_witness :
    statusMessage "octo" "cancelled" " " "mybranch" "production"
        = ("Warning:" ++ " " ++ "deployment status is unknown, please use caution", "⚠️")
      ∧ ("cancelled" == "success") = false :=
  (statusMessage_trichotomy "octo" "cancelled" " " "mybranch" "production").2.2
    (by decide) (by decide)

/-! ## Claim C10 -/

/-- C10: with all required inputs present and `noop` not `'true'`, `postDeploy`
performs exactly the status-comment update followed by one terminal
deployment-status transition; the transition state is `success` exactly when
the status input is `success` and `failure` in every other case, and an
unrecognized status still posts the cautionary unknown-status sentence while
the record is transitioned to `failure`. -/
theorem postDeploy_terminal_transition (actor comment_id reaction_id status customMessage ref
    noop deployment_id environment : String) (environment_url : Option String)
    (environment_url_in_comment : Bool)
    (h1 : comment_id ≠ "") (h2 : status ≠ "") (h3 : ref ≠ "") (h4 : noop ≠ "")
    (h5 : noop ≠ "true") (h6 : deployment_id ≠ "") (h7 : environment ≠ "") :
    postDeploy actor comment_id reaction_id status customMessage ref noop deployment_id
        environment environment_url environment_url_in_comment
      = ([Action.actionStatus reaction_id (postDeployMessage actor status customMessage ref noop
            environment environment_url environment_url_in_comment) (status == "success"),
          Action.createDeploymentStatus ref (if status == "success" then "success" else "failure")
            deployment_id environment environment_url], Except.ok "success")
      ∧ (status = "success" →
          (if status == "success" then "success" else "failure") = "success")
      ∧ (status ≠ "success" →
          (if status == "success" then "success" else "failure") = "failure")
      ∧ (status ≠ "success" → status ≠ "failure" →
          (statusMessage actor status " " ref environment).1
            = "Warning: deployment status is unknown, please use caution") := by
  refine ⟨?_, ?_, ?_, ?_⟩
  · unfold postDeploy
    rw [if_neg h1, if_neg h2, if_neg h3, if_neg h4]
    rw [if_neg fun hc => h6 hc.2, if_neg fun hc => h7 hc.2]
    rw [if_neg h5]
    rfl
  · intro hs
    subst hs
    rfl
  · intro hs
    rw [beq_eq_false_iff_ne.mpr hs]
    rfl
  · intro hs hf
    unfold statusMessage
    rw [if_neg hs, if_neg hf]
    decide

/-- Witness for C10 at the unrecognized status `"cancelled"`. -/
theorem postDeploy_terminal_transition_witness :
    postDeploy "octo" "123" "7" "cancelled" "" "mybranch" "false" "42" "production" none false
      = ([Action.actionStatus "7" (postDeployMessage "octo" "cancelled" "" "mybranch" "false"
            "production" none false) ("cancelled" == "success"),
          Action.createDeploymentStatus "mybranch"
            (if "cancelled" == "success" then "success" else "failure") "42" "production" none],
          Except.ok "success")
      ∧ (if ("cancelled" : String) == "success" then "success" else "failure") = "failure"
      ∧ (statusMessage "octo" "cancelled" " " "mybranch" "production").1
          = "Warning: deployment status is unknown, please use caution" := by
  have h := postDeploy_terminal_transition "octo" "123" "7" "cancelled" "" "mybranch" "false"
    "42" "production" none false (by decide) (by decide) (by decide) (by decide) (by decide)
    (by decide) (by decide)
  exact ⟨h.1, h.2.2.1 (by decide), h.2.2.2 (by decide) (by decide)⟩

/-! ## Effect inventories of the environment-resolution helpers -/

/-- The `findEnvironmentUrl` loop only writes `environment_url` state/output;
it performs no platform call. -/
theorem findEnvironmentUrlGo_effects (environment : String) (pairs : List String) :
    ∀ e ∈ (findEnvironmentUrlGo environment pairs).1,
      (∃ k v, e = Effect.saveState k v) ∨ (∃ k v, e = Effect.setOutput k v) := by
  induction pairs with
  | nil =>
    intro e he
    simp only [findEnvironmentUrlGo, List.mem_cons, List.not_mem_nil, or_false] at he
    rcases he with rfl | rfl
    · exact Or.inl ⟨_, _, rfl⟩
    · exact Or.inr ⟨_, _, rfl⟩
  | cons pair rest ih =>
    intro e he
    simp only [findEnvironmentUrlGo] at he
    split at he
    · split at he
      · simp at he
      · split at he
        · simp only [List.mem_cons, List.not_mem_nil, or_false] at he
          rcases he with rfl | rfl
          · exact Or.inl ⟨_, _, rfl⟩
          · exact Or.inr ⟨_, _, rfl⟩
        · split at he
          · exact ih e he
          · simp only [List.mem_cons, List.not_mem_nil, or_false] at he
            rcases he with rfl | rfl
            · exact Or.inl ⟨_, _, rfl⟩
            · exact Or.inr ⟨_, _, rfl⟩
    · exact ih e he

/-- Same inventory for the `findEnvironmentUrl` wrapper. -/
theorem findEnvironmentUrl_effects (environment : String) (urls : Option String) :
    ∀ e ∈ (findEnvironmentUrl environment urls).1,
      (∃ k v, e = Effect.saveState k v) ∨ (∃ k v, e = Effect.setOutput k v) := by
  match urls with
  | none =>
    intro e he
    simp [findEnvironmentUrl] at he
  | some s =>
    by_cases hb : jsTrim s = ""
    · intro e he
      simp [findEnvironmentUrl, hb] at he
    · intro e he
      simp only [findEnvironmentUrl, hb, if_neg, if_false] at he
      exact findEnvironmentUrlGo_effects environment _ e he

/-- When `environmentTargets` resolves an environment, the only effects it has
performed are `environment_url` state/output writes (in particular it has
created no comment and no deployment and has not set the bypass state). -/
theorem environmentTargets_effects_state_only
    (environment body trigger alt_trigger stable_branch targets : String)
    (urls : Option String) (asr : Except String Unit) (effs : List Effect)
    (p : String × Option String)
    (h : environmentTargets environment body trigger alt_trigger stable_branch targets urls asr
      = (effs, Except.ok (some p))) :
    ∀ e ∈ effs, (∃ k v, e = Effect.saveState k v) ∨ (∃ k v, e = Effect.setOutput k v) := by
  simp only [environmentTargets] at h
  split at h
  · split at h
    · injection h with h1 h2
      exact absurd h2 (by simp)
    · injection h with h1 h2
      exact absurd h2 (by simp)
  · rename_i target hondc
    rcases hfu : findEnvironmentUrl target urls with ⟨effs2, res⟩
    rw [hfu] at h
    cases res with
    | error msg =>
      injection h with h1 h2
      exact absurd h2 (by simp)
    | ok u =>
      injection h with h1 h2
      subst h1
      intro e he
      have hfst : (findEnvironmentUrl target urls).1 = effs2 := congrArg Prod.fst hfu
      rw [← hfst] at he
      exact findEnvironmentUrl_effects target urls e he

/-- When `environmentTargets` reports no matching target (`environment:
false`), it has set the bypass state before returning. -/
theorem environmentTargets_ok_none_bypass
    (environment body trigger alt_trigger stable_branch targets : String)
    (urls : Option String) (asr : Except String Unit) (effs : List Effect)
    (h : environmentTargets environment body trigger alt_trigger stable_branch targets urls asr
      = (effs, Except.ok none)) :
    Effect.saveState "bypass" "true" ∈ effs := by
  simp only [environmentTargets] at h
  split at h
  · split at h
    · injection h with h1 h2
      exact absurd h2 (by simp)
    · injection h with h1 h2
      subst h1
      simp
  · rename_i target hondc
    rcases hfu : findEnvironmentUrl target urls with ⟨effs2, res⟩
    rw [hfu] at h
    cases res with
    | error msg =>
      injection h with h1 h2
      exact absurd h2 (by simp)
    | ok u =>
      injection h with h1 h2
      exact absurd h2 (by simp)

/-! ## Claim C5 -/

/-- C5: a comment body that activates both the deploy trigger and the help
trigger is fatal: with a valid event context, `run` returns `'failure'`, its
recorded effects are exactly the `isPost` marker, the bypass state, the
`triggered='false'` output and the failure mark — in particular no reaction
has been added and no comment posted — and it silently picks neither command. -/
theorem run_multiple_commands_fatal (inp : RunInputs) (orc : RunOracle)
    (hm : inp.mergeDeployMode = false)
    (hctx : orc.contextCheckResult = Except.ok true)
    (hd : triggerCheck inp.prefixOnly (jsTrim inp.body) inp.trigger = true)
    (hh : triggerCheck inp.prefixOnly (jsTrim inp.body) inp.help_trigger = true) :
    run inp orc
      = ([Effect.saveState "isPost" "true", Effect.saveState "bypass" "true",
          Effect.setOutput "triggered" "false",
          Effect.setFailed "IssueOps message contains multiple commands, only one is allowed"],
        RunResult.failure)
      ∧ Effect.reactEmote ∉ (run inp orc).1
      ∧ (∀ s, Effect.createComment s ∉ (run inp orc).1)
      ∧ (∀ s, Effect.actionStatus s ∉ (run inp orc).1) := by
  have hmain : run inp orc
      = ([Effect.saveState "isPost" "true", Effect.saveState "bypass" "true",
          Effect.setOutput "triggered" "false",
          Effect.setFailed "IssueOps message contains multiple commands, only one is allowed"],
        RunResult.failure) := by
    simp only [run, hm, hctx, hd, hh]
    simp
  refine ⟨hmain, ?_, ?_, ?_⟩
  · rw [hmain]
    simp
  · intro s
    rw [hmain]
    simp
  · intro s
    rw [hmain]
    simp

/-- Witness for C5: the body `".deploy .help"` under substring matching
activates both triggers. -/
theorem run_multiple_commands_fatal_witness :
    run { exInputs with body := ".deploy .help" } exOracle
      = ([Effect.saveState "isPost" "true", Effect.saveState "bypass" "true",
          Effect.setOutput "triggered" "false",
          Effect.setFailed "IssueOps message contains multiple commands, only one is allowed"],
        RunResult.failure)
      ∧ Effect.reactEmote ∉ (run { exInputs with body := ".deploy .help" } exOracle).1
      ∧ (∀ s, Effect.createComment s ∉ (run { exInputs with body := ".deploy .help" } exOracle).1)
      ∧ (∀ s, Effect.actionStatus s ∉ (run { exInputs with body := ".deploy .help" } exOracle).1) :=
  run_multiple_commands_fatal { exInputs with body := ".deploy .help" } exOracle
    (by decide) (by decide) (by decide) (by decide)

/-! ## Claim C9 -/

/-- C9 (as frozen) is false on one path: when the context check reports an
invalid event context, `run` returns `'safe-exit'` having saved only the
`isPost` marker — the bypass state is *not* set on this early-exit path. -/
theorem run_bypass_counterexample :
    (run exInputs exOracleBadContext).2 = RunResult.safeExit
      ∧ Effect.saveState "bypass" "true" ∉ (run exInputs exOracleBadContext).1 :=
  ⟨by decide, by decide⟩

/-- C9 (amended): on every terminating path of `run` other than the
invalid-context safe exit — that is, every path ending in `'safe-exit'`,
`'failure'`, or a caught platform error, when the context check did not report
`false` — the bypass state has been saved as `'true'` before the function
returns. -/
theorem run_bypass_on_exit (inp : RunInputs) (orc : RunOracle) (effs : List Effect)
    (r : RunResult)
    (hctx : orc.contextCheckResult ≠ Except.ok false)
    (hrun : run inp orc = (effs, r))
    (hres : r = RunResult.safeExit ∨ r = RunResult.failure ∨ r = RunResult.errorCaught) :
    Effect.saveState "bypass" "true" ∈ effs := by
  by_cases hm : inp.mergeDeployMode = true
  · simp [run, hm] at hrun
    obtain ⟨he, hr⟩ := hrun
    subst he
    subst hr
    simp at hres
  rcases hcc : orc.contextCheckResult with msg | b
  · simp [run, hm, hcc, catchEffects] at hrun
    obtain ⟨he, hr⟩ := hrun
    subst he
    simp
  cases b
  · exact absurd hcc hctx
  by_cases hboth : (triggerCheck inp.prefixOnly (jsTrim inp.body) inp.trigger
      && triggerCheck inp.prefixOnly (jsTrim inp.body) inp.help_trigger) = true
  · simp [run, hm, hcc, hboth] at hrun
    obtain ⟨he, hr⟩ := hrun
    subst he
    simp
  by_cases hnone : (!triggerCheck inp.prefixOnly (jsTrim inp.body) inp.trigger
      && !triggerCheck inp.prefixOnly (jsTrim inp.body) inp.help_trigger) = true
  · simp [run, hm, hcc, hboth, hnone] at hrun
    obtain ⟨he, hr⟩ := hrun
    subst he
    simp
  rcases hre : orc.reactEmoteResult with msg | reaction_id
  · simp [run, hm, hcc, hboth, hnone, hre, catchEffects] at hrun
    obtain ⟨he, hr⟩ := hrun
    subst he
    simp
  by_cases hhelp : triggerCheck inp.prefixOnly (jsTrim inp.body) inp.help_trigger = true
  · have hdf : triggerCheck inp.prefixOnly (jsTrim inp.body) inp.trigger = false := by
      rcases hdv : triggerCheck inp.prefixOnly (jsTrim inp.body) inp.trigger
      · rfl
      · exact absurd (by rw [hdv, hhelp]; rfl) hboth
    rcases hvp : orc.validPermissionsResult with msg | vp
    · simp [run, hm, hcc, hboth, hnone, hre, hhelp, hdf, hvp, catchEffects] at hrun
      obtain ⟨he, hr⟩ := hrun
      subst he
      simp
    cases vp with
    | some permMsg =>
      rcases has : orc.actionStatusResult with msg | u
      · simp [run, hm, hcc, hboth, hnone, hre, hhelp, hdf, hvp, has, catchEffects] at hrun
        obtain ⟨he, hr⟩ := hrun
        subst he
        simp
      · simp [run, hm, hcc, hboth, hnone, hre, hhelp, hdf, hvp, has] at hrun
        obtain ⟨he, hr⟩ := hrun
        subst he
        simp
    | none =>
      rcases hhr : orc.helpResult with msg | u
      · simp [run, hm, hcc, hboth, hnone, hre, hhelp, hdf, hvp, hhr, catchEffects] at hrun
        obtain ⟨he, hr⟩ := hrun
        subst he
        simp
      · simp [run, hm, hcc, hboth, hnone, hre, hhelp, hdf, hvp, hhr] at hrun
        obtain ⟨he, hr⟩ := hrun
        subst he
        simp
  have hhf : triggerCheck inp.prefixOnly (jsTrim inp.body) inp.help_trigger = false := by
    rcases hhv : triggerCheck inp.prefixOnly (jsTrim inp.body) inp.help_trigger
    · rfl
    · exact absurd hhv hhelp
  have hdt : triggerCheck inp.prefixOnly (jsTrim inp.body) inp.trigger = true := by
    rcases hdv : triggerCheck inp.prefixOnly (jsTrim inp.body) inp.trigger
    · exact absurd (by rw [hdv, hhf]; rfl) hnone
    · rfl
  rcases het : environmentTargets inp.environment (jsTrim inp.body) inp.trigger inp.noop_trigger
    inp.stable_branch inp.environment_targets inp.environment_urls orc.actionStatusResult
    with ⟨e3, res3⟩
  rcases res3 with msg3 | u3
  · simp [run, hm, hcc, hboth, hnone, hre, hhf, hdt, het, catchEffects] at hrun
    obtain ⟨he, hr⟩ := hrun
    subst he
    simp
  cases u3 with
  | none =>
    simp [run, hm, hcc, hboth, hnone, hre, hhf, hdt, het] at hrun
    obtain ⟨he, hr⟩ := hrun
    subst he
    have hb := environmentTargets_ok_none_bypass _ _ _ _ _ _ _ _ _ het
    simp [hb]
  | some p =>
    obtain ⟨environment2, url2⟩ := p
    rcases hpc : orc.precheckResult with msg | pr
    · simp [run, hm, hcc, hboth, hnone, hre, hhf, hdt, het, hpc, catchEffects] at hrun
      obtain ⟨he, hr⟩ := hrun
      subst he
      simp
    by_cases hst : pr.status = false
    · rcases has : orc.actionStatusResult with msg | u
      · rw [has] at het
        simp [run, hm, hcc, hboth, hnone, hre, hhf, hdt, het, hpc, hst, has, catchEffects] at hrun
        obtain ⟨he, hr⟩ := hrun
        subst he
        simp
      · rw [has] at het
        simp [run, hm, hcc, hboth, hnone, hre, hhf, hdt, het, hpc, hst, has] at hrun
        obtain ⟨he, hr⟩ := hrun
        subst he
        simp
    rcases hccr : orc.createCommentResult with msg | u
    · simp [run, hm, hcc, hboth, hnone, hre, hhf, hdt, het, hpc, hst, hccr, catchEffects] at hrun
      obtain ⟨he, hr⟩ := hrun
      subst he
      simp
    by_cases hnm : pr.noopMode = true
    · simp [run, hm, hcc, hboth, hnone, hre, hhf, hdt, het, hpc, hst, hccr, hnm] at hrun
      obtain ⟨he, hr⟩ := hrun
      subst hr
      simp at hres
    rcases hcd : orc.createDeployResult with msg | cd
    · simp [run, hm, hcc, hboth, hnone, hre, hhf, hdt, het, hpc, hst, hccr, hnm, hcd,
        catchEffects] at hrun
      obtain ⟨he, hr⟩ := hrun
      subst he
      simp
    by_cases ham : (cd.id = none ∧ jsIncludes cd.message "Auto-merged" = true)
    · obtain ⟨ham1, ham2⟩ := ham
      rcases has : orc.actionStatusResult with msg | u
      · rw [has] at het
        simp [run, hm, hcc, hboth, hnone, hre, hhf, hdt, het, hpc, hst, hccr, hnm, hcd, ham1,
          ham2, has, catchEffects] at hrun
        obtain ⟨he, hr⟩ := hrun
        subst he
        simp
      · rw [has] at het
        simp [run, hm, hcc, hboth, hnone, hre, hhf, hdt, het, hpc, hst, hccr, hnm, hcd, ham1,
          ham2, has] at hrun
        obtain ⟨he, hr⟩ := hrun
        subst he
        simp
    · have ham' : (decide (cd.id = none) && jsIncludes cd.message "Auto-merged") = false := by
        rcases hid : cd.id with _ | v
        · rcases hj : jsIncludes cd.message "Auto-merged" with _ | _
          · simp [hj]
          · exact absurd ⟨hid, hj⟩ ham
        · simp [hid]
      rcases hcds : orc.createDeploymentStatusResult with msg | u
      · simp [run, hm, hcc, hboth, hnone, hre, hhf, hdt, het, hpc, hst, hccr, hnm, hcd, ham',
          hcds, catchEffects] at hrun
        obtain ⟨he, hr⟩ := hrun
        subst he
        simp
      · simp [run, hm, hcc, hboth, hnone, hre, hhf, hdt, het, hpc, hst, hccr, hnm, hcd, ham',
          hcds] at hrun
        obtain ⟨he, hr⟩ := hrun
        subst hr
        simp at hres

/-- Witness for C9 (amended): on a precheck rejection (a `'failure'` path) the
bypass state is in the recorded effects. -/
theorem run_bypass_on_exit_witness :
    Effect.saveState "bypass" "true" ∈ (run exInputs exOracleRejected).1 :=
  run_bypass_on_exit exInputs exOracleRejected (run exInputs exOracleRejected).1
    (run exInputs exOracleRejected).2 (by decide) rfl (Or.inr (Or.inl (by decide)))

/-! ## Claim C6 -/

/-- C6: in no-op mode no deployment record is created or transitioned.  When
prechecks succeed reporting `noopMode`, `run` returns `'success - noop'` with
no `createDeployment` and no `createDeploymentStatus` call among its effects;
and `postDeploy` invoked with `noop = 'true'` performs exactly the one status
comment update and returns `'success - noop'` without a deployment-status
transition. -/
theorem noop_mode_frame (inp : RunInputs) (orc : RunOracle) (reaction_id : Nat)
    (envEffs : List Effect) (environment2 : String) (environmentUrl : Option String)
    (pr : PrecheckResults)
    (hm : inp.mergeDeployMode = false)
    (hctx : orc.contextCheckResult = Except.ok true)
    (hd : triggerCheck inp.prefixOnly (jsTrim inp.body) inp.trigger = true)
    (hh : triggerCheck inp.prefixOnly (jsTrim inp.body) inp.help_trigger = false)
    (hre : orc.reactEmoteResult = Except.ok reaction_id)
    (henv : environmentTargets inp.environment (jsTrim inp.body) inp.trigger inp.noop_trigger
        inp.stable_branch inp.environment_targets inp.environment_urls orc.actionStatusResult
      = (envEffs, Except.ok (some (environment2, environmentUrl))))
    (hpc : orc.precheckResult = Except.ok pr)
    (hst : pr.status = true) (hnm : pr.noopMode = true)
    (hcr : orc.createCommentResult = Except.ok ())
    (actor comment_id reaction_id2 status customMessage ref deployment_id environment3 : String)
    (eu : Option String) (euic : Bool)
    (h1 : comment_id ≠ "") (h2 : status ≠ "") (h3 : ref ≠ "") :
    (run inp orc).2 = RunResult.successNoop
      ∧ (∀ dref denv, Effect.createDeployment dref denv ∉ (run inp orc).1)
      ∧ (∀ st, Effect.createDeploymentStatus st ∉ (run inp orc).1)
      ∧ postDeploy actor comment_id reaction_id2 status customMessage ref "true" deployment_id
          environment3 eu euic
        = ([Action.actionStatus reaction_id2 (postDeployMessage actor status customMessage ref
              "true" environment3 eu euic) (status == "success")],
            Except.ok "success - noop") := by
  rcases hrun : run inp orc with ⟨effs, r⟩
  simp [run, hm, hctx, hd, hh, hre, henv, hpc, hst, hnm, hcr] at hrun
  obtain ⟨he, hr⟩ := hrun
  subst hr
  subst he
  refine ⟨rfl, ?_, ?_, ?_⟩
  · intro dref denv hmem
    simp at hmem
    rcases environmentTargets_effects_state_only _ _ _ _ _ _ _ _ _ _ henv _ hmem
      with ⟨k, v, hk⟩ | ⟨k, v, hk⟩ <;> simp at hk
  · intro st hmem
    simp at hmem
    rcases environmentTargets_effects_state_only _ _ _ _ _ _ _ _ _ _ henv _ hmem
      with ⟨k, v, hk⟩ | ⟨k, v, hk⟩ <;> simp at hk
  · unfold postDeploy
    rw [if_neg h1, if_neg h2, if_neg h3]
    rw [if_neg (show ¬("true" : String) = "" by decide)]
    rw [if_neg (fun hc => hc.1 rfl), if_neg (fun hc => hc.1 rfl)]
    rw [if_pos rfl]

/-- Witness for C6: the `.deploy` comment of `exInputs` under the all-success,
noop-precheck oracle `exOracle`, and a concrete noop completion call. -/
theorem noop_mode_frame_witness :
    (run exInputs exOracle).2 = RunResult.successNoop
      ∧ (∀ dref denv, Effect.createDeployment dref denv ∉ (run exInputs exOracle).1)
      ∧ (∀ st, Effect.createDeploymentStatus st ∉ (run exInputs exOracle).1)
      ∧ postDeploy "octo" "123" "7" "success" "" "mybranch" "true" "" "" none false
        = ([Action.actionStatus "7" (postDeployMessage "octo" "success" "" "mybranch" "true" ""
              none false) ("success" == "success")],
            Except.ok "success - noop") :=
  noop_mode_frame exInputs exOracle 7 [] "production" none
    { status := true, message := "", ref := "mybranch", sha := "abc", noopMode := true }
    (by decide) (by decide) (by decide) (by decide) (by decide) (by decide) (by decide)
    (by decide) (by decide) (by decide) "octo" "123" "7" "success" "" "mybranch" "" "" none false
    (by decide) (by decide) (by decide)

end BranchDeploy
